import Mathlib

/-!
Verification of the JupyterMCPServer execution core.

The development shallowly embeds the orchestration core of the repository:

- app/code_server/jupyter/JupyterClient.py: the message loop (run_cell),
  output cleaning (clean_output), artifact capture (get_files) and the
  package installers (install_python_packages / install_npm_packages);
- app/main.py: the execute_code request handler;
- app/code_server/classes/request_classes.py: request validation;
- app/code_server/utils/file_utils.py: the background file sweep.

Text manipulated by the code is modelled as lists of characters so that
every definition is executable and kernel-reducible; byte strings are
lists of natural numbers below 256.  Python exceptions are modelled with
the Except monad: a primitive that can raise returns an Except value and
a try/except block is a match on that value.
-/

/-! ## Python-style string primitives -/

/-- Whitespace set of the Python str.strip default argument. -/
def isPySpace (c : Char) : Bool :=
  c == ' ' || c == '\t' || c == '\n' || c == '\r' || c == Char.ofNat 11 || c == Char.ofNat 12

/-- Python str.strip on a character list: drop leading and trailing whitespace. -/
def pyStrip (l : List Char) : List Char :=
  ((l.dropWhile isPySpace).reverse.dropWhile isPySpace).reverse

/-- Python "sep.join(xs)" on character lists. -/
def pyJoin (sep : List Char) (xs : List (List Char)) : List Char :=
  List.intercalate sep xs

/-- Whether the first list is a prefix of the second (Boolean, executable). -/
def isPrefixChars : List Char → List Char → Bool
  | [], _ => true
  | _ :: _, [] => false
  | p :: ps, c :: cs => p == c && isPrefixChars ps cs

/-- Whether the pattern occurs as a contiguous substring (Boolean, executable). -/
def isInfixChars (pat : List Char) : List Char → Bool
  | [] => isPrefixChars pat []
  | c :: cs => isPrefixChars pat (c :: cs) || isInfixChars pat cs

/-- Python "pat in s" for strings. -/
def strContains (s pat : String) : Bool := isInfixChars pat.data s.data

/-- Python str.lower, character by character. -/
def pyLower (s : String) : String := ⟨s.data.map Char.toLower⟩

/-! ## Base64 (model of base64.b64encode / base64.b64decode)

The code transport-encodes artifact bytes with base64.b64encode
(JupyterClient.get_files) and decodes them with base64.b64decode before
persisting (main.execute_code).  Both library functions implement RFC 4648
with the standard alphabet and '=' padding; they are modelled here on
lists of bytes and characters. -/

/-- Standard base64 alphabet shared by b64encode and b64decode. -/
def b64Alphabet : List Char :=
  ['A', 'B', 'C', 'D', 'E', 'F', 'G', 'H', 'I', 'J', 'K', 'L', 'M',
   'N', 'O', 'P', 'Q', 'R', 'S', 'T', 'U', 'V', 'W', 'X', 'Y', 'Z',
   'a', 'b', 'c', 'd', 'e', 'f', 'g', 'h', 'i', 'j', 'k', 'l', 'm',
   'n', 'o', 'p', 'q', 'r', 's', 't', 'u', 'v', 'w', 'x', 'y', 'z',
   '0', '1', '2', '3', '4', '5', '6', '7', '8', '9', '+', '/']

/-- Character for a six-bit group. -/
def c6 (n : Nat) : Char := b64Alphabet.getD n 'A'

/-- Six-bit value of an alphabet character, none for a foreign character. -/
def d6 (c : Char) : Option Nat := b64Alphabet.findIdx? (· == c)

/-- Model of base64.b64encode on a byte list, producing the transport text. -/
def b64encodeChars : List Nat → List Char
  | [] => []
  | [b1] => [c6 (b1 / 4), c6 (b1 % 4 * 16), '=', '=']
  | [b1, b2] => [c6 (b1 / 4), c6 (b1 % 4 * 16 + b2 / 16), c6 (b2 % 16 * 4), '=']
  | b1 :: b2 :: b3 :: rest =>
    c6 (b1 / 4) :: c6 (b1 % 4 * 16 + b2 / 16) :: c6 (b2 % 16 * 4 + b3 / 64) ::
      c6 (b3 % 64) :: b64encodeChars rest

/-- Model of base64.b64decode on transport text, none on malformed input. -/
def b64decodeChars : List Char → Option (List Nat)
  | [] => some []
  | a :: b :: c :: d :: rest =>
    match rest with
    | [] =>
      if d == '=' then
        if c == '=' then
          match d6 a, d6 b with
          | some x, some y => some [x * 4 + y / 16]
          | _, _ => none
        else
          match d6 a, d6 b, d6 c with
          | some x, some y, some z => some [x * 4 + y / 16, y % 16 * 16 + z / 4]
          | _, _, _ => none
      else
        match d6 a, d6 b, d6 c, d6 d with
        | some x, some y, some z, some w =>
          some [x * 4 + y / 16, y % 16 * 16 + z / 4, z % 4 * 64 + w]
        | _, _, _, _ => none
    | _ :: _ =>
      match d6 a, d6 b, d6 c, d6 d, b64decodeChars rest with
      | some x, some y, some z, some w, some tail =>
        some ((x * 4 + y / 16) :: (y % 16 * 16 + z / 4) :: (z % 4 * 64 + w) :: tail)
      | _, _, _, _, _ => none
  | _ => none

/-! ## Output fragments and clean_output (JupyterClient.py)

The run_cell loop collects heterogeneous output values: execute_result
payload dicts, stream strings, and error traceback lists.  clean_output
turns that list into one string: dict entries contribute their text/plain
payload when present, strings pass through, and traceback lists are joined
with newlines and have terminal color escape sequences removed with
re.sub applied to the pattern ESC bracket anychars m (non-greedy, with the
dot not matching a newline); the fragments are then joined with newlines
and stripped. -/

/-- The escape character starting a terminal color sequence. -/
def escChar : Char := Char.ofNat 27

/-- Length through the first m character (the dot of the pattern does not
cross a newline); none when the non-greedy body cannot be completed. -/
def ansiSpan : List Char → Option Nat
  | [] => none
  | c :: cs => if c == 'm' then some 1 else if c == '\n' then none else (ansiSpan cs).map (· + 1)

/-- Model of re.sub deleting every match of the color-escape pattern and
leaving all other characters, scanning left to right without overlap. -/
def removeAnsi : List Char → List Char
  | [] => []
  | c1 :: rest =>
    if c1 == escChar then
      match rest with
      | [] => [c1]
      | c2 :: rest2 =>
        if c2 == '[' then
          match ansiSpan rest2 with
          | some n => removeAnsi (rest2.drop n)
          | none => c1 :: c2 :: removeAnsi rest2
        else c1 :: removeAnsi (c2 :: rest2)
    else c1 :: removeAnsi rest
termination_by l => l.length
decreasing_by
  all_goals simp only [List.length_cons, List.length_drop]
  all_goals omega

/-- One element of the outputs list accumulated by run_cell: a payload dict
from execute_result, a raw string from stream, or a traceback line list
from an error message. -/
inductive Frag
  | dict (data : List (String × List Char))
  | str (s : List Char)
  | lst (l : List (List Char))
deriving DecidableEq

/-- The string contributed by one output element, none when a payload dict
has no text/plain entry. -/
def fragStr : Frag → Option (List Char)
  | .dict data => data.lookup "text/plain"
  | .str s => some s
  | .lst l => some (removeAnsi (pyJoin ['\n'] l))

/-- Model of JupyterNotebook.clean_output: the per-element strings joined
with newlines and stripped of surrounding whitespace. -/
def clean_output (outputs : List Frag) : List Char :=
  pyStrip (pyJoin ['\n'] (outputs.filterMap fragStr))

/-! ## Artifact capture: get_files (JupyterClient.py)

get_files lists the current working directory, and for each listed name
that is a regular file reads its bytes, base64-encodes them, records the
name together with the encoded content, and removes the file right away
before moving to the next name.  The working directory is modelled as a
list of entries (name, byte content, regular-file flag). -/

/-- One entry of the working directory. -/
structure DirEntry where
  name : String
  content : List Nat
  isRegularFile : Bool
deriving DecidableEq

/-- One element of the content list built by get_files. -/
structure FileEntry where
  file : String
  content : List Char
deriving DecidableEq

/-- Resolve a listed name against the directory (os.path.isfile plus open). -/
def findEntry (d : List DirEntry) (n : String) : Option DirEntry :=
  d.find? (fun e => e.name == n)

/-- Model of os.remove: drop the entry with the given name. -/
def removeFile (d : List DirEntry) (n : String) : List DirEntry :=
  d.filter (fun e => e.name != n)

/-- The for loop of get_files over the listed names: encode and delete each
regular file in turn, threading the directory state. -/
def get_files_aux : List DirEntry → List String → List FileEntry × List DirEntry
  | d, [] => ([], d)
  | d, n :: ns =>
    match findEntry d n with
    | some e =>
      if e.isRegularFile then
        let r := get_files_aux (removeFile d n) ns
        (⟨n, b64encodeChars e.content⟩ :: r.1, r.2)
      else get_files_aux d ns
    | none => get_files_aux d ns

/-- Model of JupyterNotebook.get_files: iterate over os.listdir of the
working directory, returning the encoded artifacts and the directory state
left behind. -/
def get_files (d : List DirEntry) : List FileEntry × List DirEntry :=
  get_files_aux d (d.map (·.name))

/-! ## Protocol messages and the run_cell message loop -/

/-- Tagged protocol message read from the iopub channel; msg_type values the
loop does not inspect are collapsed into the other constructor. -/
inductive Msg
  | execute_result (data : List (String × List Char))
  | stream (text : List Char)
  | error (traceback : List (List Char))
  | status (execution_state : String)
  | other (msg_type : String)
deriving DecidableEq

/-- Python exceptions distinguished by the code: queue.Empty from a timed-out
get_iopub_msg, and every other exception. -/
inductive PyExn
  | emptyExc
  | otherExc
deriving DecidableEq

deriving instance DecidableEq for Except

/-- Outcome of one client.get_iopub_msg call: the next message, or an
exception (Empty on a silence-budget timeout, anything else is fatal). -/
inductive PollEvent
  | msg (m : Msg)
  | timeout
  | fatal
deriving DecidableEq

/-- The get_iopub_msg primitive as a fallible operation. -/
def getIopubMsg : PollEvent → Except PyExn Msg
  | .msg m => .ok m
  | .timeout => .error .emptyExc
  | .fatal => .error .otherExc

/-- State carried through the run_cell while loop. -/
structure LoopAcc where
  outputs : List Frag
  error_flag : Bool
  timeout_flag : Bool
deriving DecidableEq

/-- The if and elif chain of the loop body: classify one message by its
msg_type and update the accumulated outputs and the error flag. -/
def classifyMsg (m : Msg) (acc : LoopAcc) : LoopAcc :=
  match m with
  | .execute_result data => { acc with outputs := acc.outputs ++ [.dict data] }
  | .stream s => { acc with outputs := acc.outputs ++ [.str s] }
  | .error tb => { acc with outputs := acc.outputs ++ [.lst tb], error_flag := true }
  | _ => acc

/-- Whether a message is a status message reporting the idle execution
state, which ends the loop normally. -/
def isIdleStatus : Msg → Bool
  | .status st => st == "idle"
  | _ => false

/-- The while True loop of run_cell: wait for the next message inside
try/except; classify it and stop at idle, or stop on Empty after recording
the synthetic timeout note, or stop silently on any other exception. -/
def run_cell_loop : List PollEvent → LoopAcc → LoopAcc
  | [], acc => acc
  | ev :: rest, acc =>
    match getIopubMsg ev with
    | .ok m =>
      let acc2 := classifyMsg m acc
      if isIdleStatus m then acc2 else run_cell_loop rest acc2
    | .error .emptyExc =>
      { acc with outputs := acc.outputs ++ [.str "Timeout waiting for cell execution".data],
                 error_flag := true, timeout_flag := true }
    | .error .otherExc => acc

/-- The four-tuple returned by run_cell. -/
structure RunResult where
  output : List Char
  error_flag : Bool
  files : List FileEntry
  timed_out : Bool
deriving DecidableEq

/-- Model of JupyterNotebook.run_cell over the sequence of poll outcomes:
run the loop, then return the cleaned output, the error flag, the harvested
files and the timeout flag.  The result is an Except value because Python
functions may raise, and run_cell also returns the directory left behind by
its get_files call. -/
def run_cell (events : List PollEvent) (d : List DirEntry) :
    Except PyExn (RunResult × List DirEntry) :=
  let acc := run_cell_loop events ⟨[], false, false⟩
  let fd := get_files d
  .ok (⟨clean_output acc.outputs, acc.error_flag, fd.1, acc.timeout_flag⟩, fd.2)

/-- A kernel emission schedule paired with a per-message silence bound gives
the sequence of poll outcomes: each message whose preceding silence is
within the bound is delivered; the first longer silence raises Empty, and
an exhausted schedule means the next wait raises Empty as well. -/
def pollEvents (t : Nat) : List (Nat × Msg) → List PollEvent
  | [] => [.timeout]
  | (gap, m) :: rest => if gap ≤ t then .msg m :: pollEvents t rest else [.timeout]

/-! ## Package installers (JupyterClient.py)

install_python_packages and install_npm_packages run one install command
per package through run_cell with the given timeout, stop at the first
run whose error flag is set, and have an except Empty handler around the
run_cell call.  The kernel is modelled as a function from the executed
code string to its emission schedule. -/

/-- Third component of the triple returned by the installers: the error
branch passes the Boolean error flag, the Empty branch passes a string. -/
inductive PkgMsg
  | flagv (b : Bool)
  | textv (s : String)
deriving DecidableEq

/-- Model of JupyterNotebook.install_python_packages. -/
def install_python_packages (kernel : String → List (Nat × Msg)) (packages : List String)
    (t : Nat) (d : List DirEntry) :
    Except PyExn (Option (Bool × Bool × PkgMsg) × List DirEntry) :=
  match packages with
  | [] => .ok (none, d)
  | p :: rest =>
    match run_cell (pollEvents t (kernel ("!pip install " ++ p))) d with
    | .ok (resp, d2) =>
      if resp.error_flag then .ok (some (true, false, .flagv resp.error_flag), d2)
      else install_python_packages kernel rest t d2
    | .error .emptyExc => .ok (some (true, true, .textv "Package Install Timeout"), d)
    | .error .otherExc => .error .otherExc

/-- Model of JupyterNotebook.install_npm_packages. -/
def install_npm_packages (kernel : String → List (Nat × Msg)) (packages : List String)
    (t : Nat) (d : List DirEntry) :
    Except PyExn (Option (Bool × Bool × PkgMsg) × List DirEntry) :=
  match packages with
  | [] => .ok (none, d)
  | p :: rest =>
    match run_cell (pollEvents t (kernel ("!npm install " ++ p))) d with
    | .ok (resp, d2) =>
      if resp.error_flag then .ok (some (true, false, .flagv resp.error_flag), d2)
      else install_npm_packages kernel rest t d2
    | .error .emptyExc => .ok (some (true, true, .textv ("Timeout installing package " ++ p)), d)
    | .error .otherExc => .error .otherExc

/-! ## Request validation (request_classes.py) -/

/-- The allow-list EXECUTION_ENVS. -/
def EXECUTION_ENVS : List String :=
  ["python", "python_scientific", "bash", "java", "javascript"]

/-- A file attachment.  The source computes file_size as sys.getsizeof of
the decoded content, a memory quantity with no shallow embedding; it is
carried here as an abstract size field. -/
structure FileUpload where
  filename : String
  extension : String
  contentBytes : List Nat
  size : Nat
deriving DecidableEq

/-- Model of the CodeRequest fields. -/
structure CodeRequest where
  code : String
  files : Option (List FileUpload)
  timeout : Nat
  execution_environment : String
  packages : Option (List String)
  user : String
deriving DecidableEq

/-- Validator check_timeout: rejects timeout values at most 1 or above 120. -/
def check_timeout (t : Nat) : Bool := decide (1 < t) && decide (t ≤ 120)

/-- Validator check_files: an absent list passes; a present list must be
non-empty and its total size must not exceed 100 MB. -/
def check_files : Option (List FileUpload) → Bool
  | none => true
  | some l => !l.isEmpty && decide ((l.map (·.size)).sum ≤ 100 * 1024 * 1024)

/-- Validator check_environment, together with the lower-casing it applies:
the lower-cased tag must be on the allow-list. -/
def check_environment (env : String) : Bool := EXECUTION_ENVS.contains (pyLower env)

/-- A request that passes every CodeRequest validator. -/
def validRequest (r : CodeRequest) : Bool :=
  check_timeout r.timeout && check_files r.files && check_environment r.execution_environment

/-! ## The execute_code handler (main.py) -/

/-- Value of the error field of CodeResponse (str, bool or None). -/
inductive ErrVal
  | noneV
  | flagV (b : Bool)
  | textV (s : String)
deriving DecidableEq

/-- Value of the stacktrace field; the package-install path passes the
Boolean third component of the installer triple through it. -/
inductive StackVal
  | noneS
  | flagS (b : Bool)
  | textS (s : String)
deriving DecidableEq

/-- One element of the files list of a response. -/
structure FileUrl where
  filename : String
  url : String
deriving DecidableEq

/-- Model of the CodeResponse fields. -/
structure CodeResponse where
  output : Option (List Char)
  error : ErrVal
  timedout : Bool
  files : Option (List FileUrl)
  stacktrace : StackVal
deriving DecidableEq

/-- The process-wide state the handler touches through os.chdir and
os.getcwd: the current working directory shared by the whole process, plus
a log of every os.chdir call made. -/
structure OsState where
  cwd : String
  chdirLog : List String
deriving DecidableEq

/-- Model of os.chdir. -/
def osChdir (s : OsState) (p : String) : OsState :=
  { cwd := p, chdirLog := s.chdirLog ++ [p] }

/-- Model of os.getcwd. -/
def osGetcwd (s : OsState) : String := s.cwd

/-- Fixed response of the base-environment guard. -/
def baseEnvResponse : CodeResponse :=
  ⟨none, .textV "Base environment is not supported for code execution", false, none, .noneS⟩

/-- Response for an empty code string. -/
def noCodeResponse : CodeResponse :=
  ⟨none, .textV "No code provided to run", false, none, .noneS⟩

/-- Response of the outer except Exception handler; the source interpolates
the exception text and traceback, abstracted here to fixed markers. -/
def genericErrorResponse : CodeResponse :=
  ⟨none, .textV "An error occurred", false, none, .textS "traceback"⟩

/-- Response returned when packages are requested for an ecosystem without
install support. -/
def unsupportedInstallResponse (kernelName : String) : CodeResponse :=
  ⟨none,
   .textV ("Installations of additional packages is not supported for kernel " ++ kernelName),
   false, none, .noneS⟩

/-- Stacktrace field value carrying the third component of an installer
triple. -/
def stackOfPkgMsg : PkgMsg → StackVal
  | .flagv b => .flagS b
  | .textv s => .textS s

/-- Response built from a truthy installer triple. -/
def pkgRespToResponse (t : Bool × Bool × PkgMsg) : CodeResponse :=
  ⟨none, .flagV t.1, t.2.1, none, stackOfPkgMsg t.2.2⟩

/-- The shared-storage path generated for one artifact: stem of the original
name, a dash, a fresh hex id, a dot, the final extension component. -/
def persistName (name uuid : String) : String :=
  let parts := name.splitOn "."
  "/files/" ++ String.intercalate "." parts.dropLast ++ "-" ++ uuid ++ "." ++ parts.getLastD ""

/-- Observable outcome of one execute_code request: the response plus the
effects the specification talks about — how many runtime sessions were
created, the arguments passed to each spawn (only a kernel name, no
directory), and the decoded bytes persisted to shared storage by path. -/
structure HandlerResult where
  response : CodeResponse
  sessionsCreated : Nat
  spawns : List String
  persisted : List (String × List Nat)
deriving DecidableEq

/-- Truthiness of the packages field: None and the empty list are falsy. -/
def hasPackages : Option (List String) → Bool
  | some (_ :: _) => true
  | _ => false

/-- The run-and-persist tail of the handler: run the submitted code, persist
each harvested artifact under a fresh name with its base64 content decoded,
and build the response. -/
def runCodeAndRespond (kernel : String → List (Nat × Msg)) (uuidGen : Nat → String)
    (code : String) (t : Nat) (d2 : List DirEntry) :
    CodeResponse × List (String × List Nat) :=
  match run_cell (pollEvents t (kernel code)) d2 with
  | .ok (r, _) =>
    let persistedPairs := r.files.enum.map (fun pe =>
      (persistName pe.2.file (uuidGen pe.1), (b64decodeChars pe.2.content).getD []))
    let fileUrls := r.files.enum.map (fun pe =>
      FileUrl.mk pe.2.file ("http://127.0.0.1:8080/jupyter" ++ persistName pe.2.file (uuidGen pe.1)))
    (⟨some r.output, .flagV r.error_flag, r.timed_out,
      if r.files.isEmpty then none else some fileUrls, .noneS⟩, persistedPairs)
  | .error _ => (genericErrorResponse, [])

/-- Model of the execute_code handler of app/main.py.  Collaborators are
parameters: the kernel emission schedule per executed code string, the
fresh hex ids used for persisted names, the temporary directory created
for the request and its contents at capture time.  The handler saves the
process working directory, changes into the temporary directory, runs the
guarded body, and changes back in the finally block. -/
def execute_code (kernel : String → List (Nat × Msg)) (uuidGen : Nat → String)
    (tmpdir : String) (d : List DirEntry) (inp : CodeRequest) (s0 : OsState) :
    HandlerResult × OsState :=
  let cwd := osGetcwd s0
  let s1 := osChdir s0 tmpdir
  let inner : HandlerResult :=
    if inp.execution_environment == "python3" then
      ⟨baseEnvResponse, 0, [], []⟩
    else if inp.code != "" then
      let spawns := [inp.execution_environment]
      if hasPackages inp.packages then
        let pkgs := inp.packages.getD []
        if strContains (pyLower inp.execution_environment) "python" then
          match install_python_packages kernel pkgs inp.timeout d with
          | .ok (some t, _) => ⟨pkgRespToResponse t, 1, spawns, []⟩
          | .ok (none, d2) =>
            let rp := runCodeAndRespond kernel uuidGen inp.code inp.timeout d2
            ⟨rp.1, 1, spawns, rp.2⟩
          | .error _ => ⟨genericErrorResponse, 1, spawns, []⟩
        else if strContains (pyLower inp.execution_environment) "javascript" then
          match install_npm_packages kernel pkgs inp.timeout d with
          | .ok (some t, _) => ⟨pkgRespToResponse t, 1, spawns, []⟩
          | .ok (none, d2) =>
            let rp := runCodeAndRespond kernel uuidGen inp.code inp.timeout d2
            ⟨rp.1, 1, spawns, rp.2⟩
          | .error _ => ⟨genericErrorResponse, 1, spawns, []⟩
        else ⟨unsupportedInstallResponse inp.execution_environment, 1, spawns, []⟩
      else
        let rp := runCodeAndRespond kernel uuidGen inp.code inp.timeout d
        ⟨rp.1, 1, spawns, rp.2⟩
    else
      ⟨noCodeResponse, 0, [], []⟩
  let s2 := osChdir s1 cwd
  (inner, s2)

/-! ## The background file sweep (file_utils.py) -/

/-- An entry of the shared persisted-file store, with its modification time
in seconds and whether the path is a regular file. -/
structure StoredFile where
  name : String
  mtime : Nat
  isRegular : Bool
deriving DecidableEq

/-- Lifetime in minutes chosen by the sweep: 2880 when the name contains
the literal substring dash-long, else 20. -/
def fileLifetimeMinutes (fname : String) : Nat :=
  if strContains fname "-long" then 2880 else 20

/-- Modelled from the spec wording for comparison: tier classified by the
literal substring marker long (48 h), else 20 min. -/
def fileLifetimeMinutesSpec (fname : String) : Nat :=
  if strContains fname "long" then 2880 else 20

/-- The OSError family caught by the sweep around os.remove. -/
inductive OSErr
  | osError
deriving DecidableEq

/-- One cycle of the _cleanup_old_files loop body: for each store entry,
pick the lifetime tier from the name, skip non-regular paths, and when the
age since mtime strictly exceeds the tier threshold attempt os.remove,
swallowing OSError.  The removal oracle says whether each os.remove call
succeeds; the cycle returns the surviving store, as an Except value since
an unhandled exception would propagate. -/
def cleanup_cycle (now : Nat) (rm : String → Except OSErr Unit) :
    List StoredFile → Except OSErr (List StoredFile)
  | [] => .ok []
  | f :: rest => do
    let keep : Bool :=
      if !f.isRegular then true
      else if 60 * fileLifetimeMinutes f.name < now - f.mtime then
        match rm f.name with
        | .ok _ => false
        | .error _ => true
      else true
    let rest2 ← cleanup_cycle now rm rest
    pure (if keep then f :: rest2 else rest2)

/-- Whether one store entry survives a sweep cycle: it is not a regular
file, or its age does not exceed its tier threshold, or its removal fails
and the failure is swallowed. -/
def sweepSurvives (now : Nat) (rm : String → Except OSErr Unit) (f : StoredFile) : Bool :=
  !f.isRegular || !decide (60 * fileLifetimeMinutes f.name < now - f.mtime) ||
    (match rm f.name with | .ok _ => false | .error _ => true)

/-! ## Derived observers used by the statements -/

/-- Fragment contributed by one protocol message in the loop body. -/
def fragOfMsg : Msg → Option Frag
  | .execute_result data => some (.dict data)
  | .stream s => some (.str s)
  | .error tb => some (.lst tb)
  | _ => none

/-- Whether a message is an error message. -/
def isErrorMsg : Msg → Bool
  | .error _ => true
  | _ => false

/-- Fragments the loop collects from a message sequence. -/
def msgFrags (ms : List Msg) : List Frag := ms.filterMap fragOfMsg

/-- Whether a message sequence contains an error message. -/
def msgsError (ms : List Msg) : Bool := ms.any isErrorMsg

/-- A kernel schedule whose next wait must time out: either the schedule is
exhausted (the kernel stays silent forever) or the silence before the next
message exceeds the bound. -/
def kernelSilent (t : Nat) : List (Nat × Msg) → Bool
  | [] => true
  | (g, _) :: _ => decide (t < g)

/-- A kernel that never emits a message on any channel. -/
def silentKernel : String → List (Nat × Msg) := fun _ => []

/-- A removal oracle under which every os.remove succeeds. -/
def rmAlwaysOk : String → Except OSErr Unit := fun _ => .ok ()

/-- A request used as concrete input in counterexamples and witnesses. -/
def demoRequest : CodeRequest := ⟨"", none, 10, "python", none, "alice"⟩
/-- The capture decision get_files makes for one listed name against a
directory state: the encoded entry when the name resolves to a regular
file, nothing otherwise. -/
def captureOf (d : List DirEntry) (n : String) : Option FileEntry :=
  match findEntry d n with
  | some e => if e.isRegularFile then some ⟨n, b64encodeChars e.content⟩ else none
  | none => none

/-- A concrete working directory used in witnesses. -/
def demoDir : List DirEntry :=
  [⟨"a.png", [1, 2, 3], true⟩, ⟨"sub", [], false⟩, ⟨"b.txt", [255], true⟩]

/-- A concrete attachment used in witnesses. -/
def demoAttachment : FileUpload := ⟨"data", "txt", [1, 2], 2⟩

lemma d6_c6 : ∀ n, n < 64 → d6 (c6 n) = some n := by decide

lemma c6_ne_pad : ∀ n, n < 64 → (c6 n == '=') = false := by decide

lemma b64encode_cons_ne_nil (x : Nat) (xs : List Nat) : b64encodeChars (x :: xs) ≠ [] := by
  rcases xs with _ | ⟨y, _ | ⟨z, t⟩⟩ <;> simp [b64encodeChars]

lemma b64_roundtrip : ∀ bs : List Nat, (∀ b ∈ bs, b < 256) →
    b64decodeChars (b64encodeChars bs) = some bs := by
  intro bs
  induction bs using b64encodeChars.induct with
  | case1 =>
    intro _
    rfl
  | case2 b1 =>
    intro h
    have hb1 : b1 < 256 := h b1 (by simp)
    simp only [b64encodeChars, b64decodeChars]
    rw [d6_c6 _ (by omega), d6_c6 _ (by omega)]
    simp only [beq_self_eq_true, if_true]
    simp only [Option.some.injEq, List.cons.injEq, and_true]
    omega
  | case3 b1 b2 =>
    intro h
    have hb1 : b1 < 256 := h b1 (by simp)
    have hb2 : b2 < 256 := h b2 (by simp)
    simp only [b64encodeChars, b64decodeChars]
    simp only [beq_self_eq_true, if_true]
    rw [c6_ne_pad (b2 % 16 * 4) (by omega)]
    simp only [Bool.false_eq_true, if_false]
    rw [d6_c6 _ (by omega), d6_c6 _ (by omega), d6_c6 _ (by omega)]
    dsimp only
    simp only [Option.some.injEq, List.cons.injEq, and_true]
    omega
  | case4 b1 b2 b3 rest ih =>
    intro h
    have hb1 : b1 < 256 := h b1 (by simp)
    have hb2 : b2 < 256 := h b2 (by simp)
    have hb3 : b3 < 256 := h b3 (by simp)
    have hrest : ∀ b ∈ rest, b < 256 := fun b hb => h b (by simp [hb])
    rcases rest with _ | ⟨r, rs⟩
    · simp only [b64encodeChars, b64decodeChars]
      rw [c6_ne_pad (b3 % 64) (by omega)]
      simp only [Bool.false_eq_true, if_false]
      rw [d6_c6 _ (by omega), d6_c6 _ (by omega), d6_c6 _ (by omega), d6_c6 _ (by omega)]
      dsimp only
      simp only [Option.some.injEq, List.cons.injEq, and_true]
      omega
    · obtain ⟨e, etail, heq⟩ := List.exists_cons_of_ne_nil (b64encode_cons_ne_nil r rs)
      simp only [b64encodeChars]
      simp only [b64decodeChars]
      rw [heq]
      dsimp only
      rw [← heq, ih hrest]
      rw [d6_c6 _ (by omega), d6_c6 _ (by omega), d6_c6 _ (by omega), d6_c6 _ (by omega)]
      dsimp only
      simp only [Option.some.injEq, List.cons.injEq, and_true]
      omega

/-! ## Message loop lemmas -/

lemma msgFrags_cons (m : Msg) (ms : List Msg) :
    msgFrags (m :: ms) = (fragOfMsg m).toList ++ msgFrags ms := by
  cases hm : fragOfMsg m <;> simp [msgFrags, List.filterMap_cons, hm]

lemma msgsError_cons (m : Msg) (ms : List Msg) :
    msgsError (m :: ms) = (isErrorMsg m || msgsError ms) := by
  simp [msgsError]

lemma classifyMsg_spec (m : Msg) (acc : LoopAcc) :
    classifyMsg m acc =
      ⟨acc.outputs ++ (fragOfMsg m).toList, acc.error_flag || isErrorMsg m, acc.timeout_flag⟩ := by
  cases m <;> simp [classifyMsg, fragOfMsg, isErrorMsg]

lemma run_cell_loop_msgs (ms : List Msg) :
    ∀ (evs : List PollEvent) (acc : LoopAcc), (∀ m ∈ ms, isIdleStatus m = false) →
    run_cell_loop (ms.map PollEvent.msg ++ evs) acc =
      run_cell_loop evs
        ⟨acc.outputs ++ msgFrags ms, acc.error_flag || msgsError ms, acc.timeout_flag⟩ := by
  induction ms with
  | nil =>
    intro evs acc _
    simp [msgFrags, msgsError]
  | cons m ms ih =>
    intro evs acc h
    have hm : isIdleStatus m = false := h m (by simp)
    simp only [List.map_cons, List.cons_append, run_cell_loop, getIopubMsg]
    rw [hm]
    simp only [Bool.false_eq_true, if_false]
    rw [classifyMsg_spec]
    simp only [List.append_eq]
    rw [ih _ _ (fun x hx => h x (by simp [hx]))]
    simp [msgFrags_cons, msgsError_cons, Bool.or_assoc]

lemma run_cell_loop_timeout (acc : LoopAcc) :
    run_cell_loop [.timeout] acc =
      ⟨acc.outputs ++ [.str "Timeout waiting for cell execution".data], true, true⟩ := rfl

lemma pollEvents_deliver (t : Nat) (ms1 ms2 : List (Nat × Msg)) (h : ∀ p ∈ ms1, p.1 ≤ t) :
    pollEvents t (ms1 ++ ms2) = (ms1.map (·.2)).map PollEvent.msg ++ pollEvents t ms2 := by
  induction ms1 with
  | nil => simp
  | cons p ps ih =>
    obtain ⟨g, m⟩ := p
    have hg : g ≤ t := h (g, m) (by simp)
    simp [pollEvents, hg, ih (fun q hq => h q (by simp [hq]))]

lemma pollEvents_silent (t : Nat) (ms : List (Nat × Msg)) (h : kernelSilent t ms = true) :
    pollEvents t ms = [.timeout] := by
  cases ms with
  | nil => rfl
  | cons p ps =>
    obtain ⟨g, m⟩ := p
    simp only [kernelSilent, decide_eq_true_eq] at h
    simp only [pollEvents]
    rw [if_neg (by omega)]

/-- C2: after the execute command is issued, the loop waits for each next
protocol message with a bound of timeoutSeconds measured since the previous
message, not since execution began: every message whose preceding silence
is within the bound is consumed regardless of the accumulated total, and as
soon as the next silence exceeds the bound the loop appends the synthetic
timeout note to the output, reports the timeout flag true, and stops
without consuming anything further. -/
theorem run_cell_silence_timeout (t : Nat) (ms1 rest : List (Nat × Msg)) (d : List DirEntry)
    (hgap : ∀ p ∈ ms1, p.1 ≤ t ∧ isIdleStatus p.2 = false)
    (hsilent : kernelSilent t rest = true) :
    run_cell (pollEvents t (ms1 ++ rest)) d =
      .ok (⟨clean_output (msgFrags (ms1.map (·.2)) ++
              [.str "Timeout waiting for cell execution".data]),
            true, (get_files d).1, true⟩, (get_files d).2) := by
  rw [pollEvents_deliver t ms1 rest (fun p hp => (hgap p hp).1), pollEvents_silent t rest hsilent]
  unfold run_cell
  rw [run_cell_loop_msgs _ _ _
    (fun m hm => by obtain ⟨p, hp, rfl⟩ := List.mem_map.mp hm; exact (hgap p hp).2)]
  rw [run_cell_loop_timeout]
  simp

/-- Closed instance of C2 at a concrete schedule: with a bound of 2 seconds
the loop consumes three messages separated by 2 seconds of silence each (a
total of 6 seconds, far beyond the bound) and only the following 3-second
silence triggers the timeout outcome. -/
theorem run_cell_silence_timeout_witness :
    (∀ p ∈ [(2, Msg.stream "a".data), (2, Msg.stream "b".data), (2, Msg.stream "c".data)],
        p.1 ≤ 2 ∧ isIdleStatus p.2 = false) ∧
    run_cell (pollEvents 2 ([(2, Msg.stream "a".data), (2, Msg.stream "b".data),
        (2, Msg.stream "c".data)] ++ [(3, Msg.stream "z".data)])) [] =
      .ok (⟨clean_output (msgFrags ([(2, Msg.stream "a".data), (2, Msg.stream "b".data),
              (2, Msg.stream "c".data)].map (·.2)) ++
              [.str "Timeout waiting for cell execution".data]),
            true, (get_files ([] : List DirEntry)).1, true⟩, (get_files ([] : List DirEntry)).2) :=
  ⟨by decide, run_cell_silence_timeout 2 _ _ _ (by decide) (by decide)⟩

lemma run_cell_loop_idle (evs : List PollEvent) (acc : LoopAcc) :
    run_cell_loop (.msg (Msg.status "idle") :: evs) acc = acc := by
  simp [run_cell_loop, getIopubMsg, classifyMsg, isIdleStatus]

lemma run_cell_loop_fatal (evs : List PollEvent) (acc : LoopAcc) :
    run_cell_loop (.fatal :: evs) acc = acc := rfl

/-- C5: each consumed message is classified by its tag — an execute_result
message contributes the text/plain entry of its payload, a stream message
its raw text, an error message sets the error flag and contributes its
traceback joined and stripped of terminal color escape sequences — a
status message reporting idle ends the loop normally without consuming the
rest, and the final output text is the accumulated fragments joined with
newlines and trimmed of leading and trailing whitespace. -/
theorem run_cell_normal_completion (t : Nat) (ms1 ms2 : List (Nat × Msg)) (g : Nat)
    (d : List DirEntry)
    (hgap : ∀ p ∈ ms1, p.1 ≤ t ∧ isIdleStatus p.2 = false) (hg : g ≤ t) :
    run_cell (pollEvents t (ms1 ++ (g, Msg.status "idle") :: ms2)) d =
      .ok (⟨pyStrip (pyJoin ['\n'] ((msgFrags (ms1.map (·.2))).filterMap fragStr)),
            msgsError (ms1.map (·.2)), (get_files d).1, false⟩, (get_files d).2) := by
  rw [pollEvents_deliver t ms1 _ (fun p hp => (hgap p hp).1)]
  simp only [pollEvents]
  rw [if_pos hg]
  unfold run_cell
  rw [run_cell_loop_msgs _ _ _
    (fun m hm => by obtain ⟨p, hp, rfl⟩ := List.mem_map.mp hm; exact (hgap p hp).2)]
  rw [run_cell_loop_idle]
  simp [clean_output]

/-- Closed instance of C5: a result payload, a stream chunk and a colored
error traceback are classified and cleaned, and the idle status message
ends the run with the timeout flag clear. -/
theorem run_cell_normal_completion_witness :
    (∀ p ∈ [(1, Msg.execute_result [("text/plain", "6".data)]),
            (2, Msg.stream "out".data),
            (1, Msg.error ["\x1b[31mBad\x1b[0m".data])],
        p.1 ≤ 10 ∧ isIdleStatus p.2 = false) ∧
    run_cell (pollEvents 10 ([(1, Msg.execute_result [("text/plain", "6".data)]),
        (2, Msg.stream "out".data), (1, Msg.error ["\x1b[31mBad\x1b[0m".data])] ++
        (1, Msg.status "idle") :: [])) [] =
      .ok (⟨pyStrip (pyJoin ['\n']
              ((msgFrags ([(1, Msg.execute_result [("text/plain", "6".data)]),
                  (2, Msg.stream "out".data),
                  (1, Msg.error ["\x1b[31mBad\x1b[0m".data])].map (·.2))).filterMap fragStr)),
            msgsError ([(1, Msg.execute_result [("text/plain", "6".data)]),
                (2, Msg.stream "out".data),
                (1, Msg.error ["\x1b[31mBad\x1b[0m".data])].map (·.2)),
            (get_files ([] : List DirEntry)).1, false⟩, (get_files ([] : List DirEntry)).2) :=
  ⟨by decide, run_cell_normal_completion 10 _ [] 1 [] (by decide) (by decide)⟩

/-- C6: the run_cell loop never lets an exception escape to its caller: the
result of run_cell is always an ok value carrying the four-tuple, and an
exception other than the Empty timeout signal raised while waiting stops
the loop as a fatal completion, returning the output and error flag
accumulated so far with the timeout flag clear and nothing further
consumed. -/
theorem run_cell_exceptions_contained :
    (∀ (events : List PollEvent) (d : List DirEntry), (run_cell events d).isOk = true) ∧
    (∀ (ms : List Msg) (evs2 : List PollEvent) (d : List DirEntry),
      (∀ m ∈ ms, isIdleStatus m = false) →
      run_cell (ms.map PollEvent.msg ++ .fatal :: evs2) d =
        .ok (⟨clean_output (msgFrags ms), msgsError ms, (get_files d).1, false⟩,
             (get_files d).2)) := by
  constructor
  · intro events d
    rfl
  · intro ms evs2 d h
    unfold run_cell
    rw [run_cell_loop_msgs _ _ _ h, run_cell_loop_fatal]
    simp

/-- Closed instance of C6: a fatal poll exception after one stream message
still yields the four-tuple built from the prefix. -/
theorem run_cell_exceptions_contained_witness :
    run_cell ([Msg.stream "hi".data].map PollEvent.msg ++ .fatal :: []) [] =
      .ok (⟨clean_output (msgFrags [Msg.stream "hi".data]), msgsError [Msg.stream "hi".data],
            (get_files ([] : List DirEntry)).1, false⟩, (get_files ([] : List DirEntry)).2) :=
  run_cell_exceptions_contained.2 [Msg.stream "hi".data] [] [] (by decide)

/-- C1 (documenting the divergence): against a kernel that never emits a
message, run_cell itself reports the silence-budget timeout through its
error and timeout flags, yet install_python_packages returns the triple
(true, false, flag true): the error indicator is set but the timeout slot
is false and the message slot carries the Boolean error flag.  The except
Empty branch of the installer, the only source of a timeout-true triple,
can never fire because run_cell catches Empty internally. -/
theorem install_python_packages_timeout_misreport :
    run_cell (pollEvents 10 (silentKernel "!pip install numpy")) [] =
      .ok (⟨"Timeout waiting for cell execution".data, true, [], true⟩, []) ∧
    install_python_packages silentKernel ["numpy"] 10 [] =
      .ok (some (true, false, PkgMsg.flagv true), []) := by
  constructor
  · decide
  · decide

/-- C3 counterexample: handling one request from a process state with an
empty chdir log leaves a log of two os.chdir calls — into the temporary
directory and back — refuting the claim that the handler never mutates the
shared process-wide current working directory. -/
theorem execute_code_mutates_cwd_counterexample :
    ((execute_code silentKernel (fun _ => "id") "/tmp/req" [] demoRequest ⟨"/app", []⟩).2).chdirLog
      = ["/tmp/req", "/app"] := by decide

/-- C3 amended: for every request the handler reads the process working
directory, mutates the shared process-wide working directory to the fresh
temporary directory for the duration of the request via os.chdir, and
restores the saved directory in the finally block; the runtime spawn
itself receives no directory argument. -/
theorem execute_code_chdir_discipline (kernel : String → List (Nat × Msg))
    (uuidGen : Nat → String) (tmpdir : String) (d : List DirEntry) (inp : CodeRequest)
    (s0 : OsState) :
    ((execute_code kernel uuidGen tmpdir d inp s0).2).chdirLog
        = s0.chdirLog ++ [tmpdir, s0.cwd] ∧
      ((execute_code kernel uuidGen tmpdir d inp s0).2).cwd = s0.cwd := by
  constructor <;> simp [execute_code, osChdir, osGetcwd]

/-- C4: a request whose environment tag is the base environment python3
creates no runtime session, spawns nothing, persists nothing, and receives
the fixed unsupported response with the timeout flag false and no
artifacts. -/
theorem base_environment_rejected (kernel : String → List (Nat × Msg)) (uuidGen : Nat → String)
    (tmpdir : String) (d : List DirEntry) (inp : CodeRequest) (s0 : OsState)
    (h : inp.execution_environment = "python3") :
    (execute_code kernel uuidGen tmpdir d inp s0).1 =
      ⟨⟨none, .textV "Base environment is not supported for code execution", false, none, .noneS⟩,
       0, [], []⟩ := by
  simp [execute_code, h, baseEnvResponse]

/-- Closed instance of C4 at a concrete python3 request. -/
theorem base_environment_rejected_witness :
    ({ demoRequest with execution_environment := "python3" } : CodeRequest).execution_environment
        = "python3" ∧
    (execute_code silentKernel (fun _ => "id") "/tmp/req" []
        { demoRequest with execution_environment := "python3" } ⟨"/app", []⟩).1 =
      ⟨⟨none, .textV "Base environment is not supported for code execution", false, none, .noneS⟩,
       0, [], []⟩ :=
  ⟨rfl, base_environment_rejected _ _ _ _ _ _ rfl⟩

/-- C7 counterexample: a regular persisted file named long.txt, 1800
seconds (30 minutes) old, is deleted by the sweep cycle, although its name
contains the literal substring long, which under the claim wording selects
the 48-hour tier whose threshold a 30-minute age does not exceed; the
marker the code actually tests is dash-long. -/
theorem sweep_marker_counterexample :
    cleanup_cycle 1800 rmAlwaysOk [⟨"long.txt", 0, true⟩] = .ok [] ∧
      fileLifetimeMinutesSpec "long.txt" = 2880 ∧
      fileLifetimeMinutes "long.txt" = 20 ∧
      ¬(60 * fileLifetimeMinutesSpec "long.txt" < 1800 - 0) :=
  ⟨by decide, by decide, by decide, by decide⟩

/-- C7 amended: one sweep cycle never raises — an OSError from os.remove
is swallowed — and the surviving store consists exactly of the entries
that are not regular files, or whose age computed from the last-modified
time does not exceed the threshold of the tier selected by the literal
dash-long name marker (48 hours when present, 20 minutes otherwise), or
whose removal attempt failed. -/
theorem cleanup_cycle_deletes_expired (now : Nat) (rm : String → Except OSErr Unit)
    (store : List StoredFile) :
    cleanup_cycle now rm store = .ok (store.filter (sweepSurvives now rm)) := by
  induction store with
  | nil => rfl
  | cons f rest ih =>
    have hkeep :
        (if !f.isRegular then true
         else if 60 * fileLifetimeMinutes f.name < now - f.mtime then
           match rm f.name with | .ok _ => false | .error _ => true
         else true) = sweepSurvives now rm f := by
      unfold sweepSurvives
      cases hr : f.isRegular
      · simp [hr]
      · simp only [hr, Bool.not_true, Bool.false_or, if_false]
        by_cases hexp : 60 * fileLifetimeMinutes f.name < now - f.mtime
        · simp only [hexp, if_true, decide_eq_true_eq, decide_True]
          cases hrm : rm f.name <;> simp [hrm, hexp]
        · simp [hexp]
    simp only [cleanup_cycle, ih, List.filter_cons, bind, Except.bind, pure, Except.pure]
    rw [hkeep]

/-! ## Lemmas about get_files -/

lemma findEntry_cons_self (e : DirEntry) (d : List DirEntry) : findEntry (e :: d) e.name = some e := by
  unfold findEntry
  rw [List.find?_cons_of_pos _ (by simp)]

lemma findEntry_cons_ne (e : DirEntry) (d : List DirEntry) (n : String) (h : e.name ≠ n) :
    findEntry (e :: d) n = findEntry d n := by
  unfold findEntry
  rw [List.find?_cons_of_neg _ (by simp [h])]

lemma findEntry_removeFile_ne (d : List DirEntry) (n x : String) (hx : x ≠ n) :
    findEntry (removeFile d n) x = findEntry d x := by
  induction d with
  | nil => rfl
  | cons e d ih =>
    by_cases he : e.name = n
    · have hdrop : removeFile (e :: d) n = removeFile d n := by
        simp [removeFile, List.filter_cons, he]
      rw [hdrop, ih, findEntry_cons_ne e d x (by rw [he]; exact fun hcon => hx hcon.symm)]
    · have hkeep : removeFile (e :: d) n = e :: removeFile d n := by
        simp [removeFile, List.filter_cons, he]
      rw [hkeep]
      by_cases hex : e.name = x
      · rw [← hex, findEntry_cons_self, findEntry_cons_self]
      · rw [findEntry_cons_ne e _ x hex, findEntry_cons_ne e d x hex, ih]

lemma get_files_aux_spec : ∀ (ns : List String) (d : List DirEntry),
    (d.map (·.name)).Nodup → ns.Nodup →
    get_files_aux d ns =
      (ns.filterMap (captureOf d),
       d.filter (fun e => !(e.isRegularFile && decide (e.name ∈ ns)))) := by
  intro ns
  induction ns with
  | nil =>
    intro d _ _
    simp [get_files_aux]
  | cons n ns ih =>
    intro d hd hns
    have hnotin : n ∉ ns := (List.nodup_cons.mp hns).1
    have hns' : ns.Nodup := (List.nodup_cons.mp hns).2
    cases hfind : findEntry d n with
    | none =>
      have hname : ∀ e ∈ d, e.name ≠ n := by
        intro e he hcon
        have hall := List.find?_eq_none.mp hfind e he
        simp [hcon] at hall
      simp only [get_files_aux, hfind]
      rw [ih d hd hns']
      refine Prod.ext ?_ ?_
      · simp [List.filterMap_cons, captureOf, hfind]
      · apply List.filter_congr
        intro e he
        have hne : e.name ≠ n := hname e he
        simp [List.mem_cons, hne]
    | some e =>
      have hmem : e ∈ d := List.mem_of_find?_eq_some hfind
      have hename : e.name = n := by
        have h1 := List.find?_some hfind
        simpa using h1
      have huniq : ∀ e2 ∈ d, e2.name = n → e2 = e := by
        intro e2 he2 hn2
        exact List.inj_on_of_nodup_map hd he2 hmem (by rw [hn2, hename])
      cases hreg : e.isRegularFile with
      | true =>
        simp only [get_files_aux, hfind, hreg, if_true]
        have hsub : List.Sublist ((removeFile d n).map (·.name)) (d.map (·.name)) :=
          List.Sublist.map (·.name) (List.filter_sublist d)
        have hd2 : ((removeFile d n).map (·.name)).Nodup := List.Nodup.sublist hsub hd
        rw [ih (removeFile d n) hd2 hns']
        refine Prod.ext ?_ ?_
        · simp only [List.filterMap_cons, captureOf, hfind, hreg, if_true]
          refine congrArg (_ :: ·) ?_
          apply List.filterMap_congr
          intro x hx
          have hxn : x ≠ n := fun hcon => hnotin (hcon ▸ hx)
          simp [captureOf, findEntry_removeFile_ne d n x hxn]
        · show (removeFile d n).filter _ = _
          unfold removeFile
          rw [List.filter_filter]
          apply List.filter_congr
          intro e2 he2
          by_cases he2n : e2.name = n
          · have he2e : e2 = e := huniq e2 he2 he2n
            simp [he2n, he2e, hreg, hename]
          · simp [List.mem_cons, he2n]
      | false =>
        simp only [get_files_aux, hfind, hreg, Bool.false_eq_true, if_false]
        rw [ih d hd hns']
        refine Prod.ext ?_ ?_
        · simp [List.filterMap_cons, captureOf, hfind, hreg]
        · apply List.filter_congr
          intro e2 he2
          by_cases he2n : e2.name = n
          · have he2e : e2 = e := huniq e2 he2 he2n
            simp [he2n, he2e, hreg]
          · simp [List.mem_cons, he2n]

lemma filterMap_captureOf_names : ∀ (d : List DirEntry), (d.map (·.name)).Nodup →
    (d.map (·.name)).filterMap (captureOf d) =
      (d.filter (·.isRegularFile)).map (fun e => ⟨e.name, b64encodeChars e.content⟩) := by
  intro d
  induction d with
  | nil =>
    intro _
    rfl
  | cons e d ih =>
    intro hd
    have hn : e.name ∉ d.map (·.name) := (List.nodup_cons.mp hd).1
    have hd' : (d.map (·.name)).Nodup := (List.nodup_cons.mp hd).2
    have hcap : captureOf (e :: d) e.name =
        if e.isRegularFile then some ⟨e.name, b64encodeChars e.content⟩ else none := by
      simp [captureOf, findEntry_cons_self]
    have htail : (d.map (·.name)).filterMap (captureOf (e :: d)) =
        (d.map (·.name)).filterMap (captureOf d) := by
      apply List.filterMap_congr
      intro x hx
      have hxe : e.name ≠ x := fun hcon => hn (hcon ▸ hx)
      simp [captureOf, findEntry_cons_ne e d x hxe]
    cases hreg : e.isRegularFile <;>
      simp [List.filterMap_cons, hcap, hreg, htail, List.filter_cons, ih hd']

/-- C8: with distinct names in the session working directory, get_files
returns exactly the regular files of the directory in listing order, each
recorded under its original filename with its full binary content base64
encoded; the directory left behind holds only the non-regular entries, so
every captured file has been deleted; an empty directory yields an empty
artifact list without error; and deletion is interleaved with capture file
by file: after any prefix of the listing has been processed, no regular
file of that prefix remains in the directory state. -/
theorem get_files_capture_spec (d : List DirEntry) (hd : (d.map (·.name)).Nodup) :
    (get_files d).1 = (d.filter (·.isRegularFile)).map
        (fun e => ⟨e.name, b64encodeChars e.content⟩) ∧
    (get_files d).2 = d.filter (fun e => !e.isRegularFile) ∧
    get_files ([] : List DirEntry) = ([], []) ∧
    (∀ k : Nat, (get_files_aux d ((d.map (·.name)).take k)).2 =
        d.filter (fun e => !(e.isRegularFile && decide (e.name ∈ (d.map (·.name)).take k)))) := by
  have hmain := get_files_aux_spec (d.map (·.name)) d hd hd
  refine ⟨?_, ?_, rfl, ?_⟩
  · rw [get_files, hmain]
    exact filterMap_captureOf_names d hd
  · rw [get_files, hmain]
    apply List.filter_congr
    intro e he
    have : e.name ∈ d.map (·.name) := List.mem_map.mpr ⟨e, he, rfl⟩
    simp [this]
  · intro k
    have hk := get_files_aux_spec ((d.map (·.name)).take k) d hd
      (List.Nodup.sublist (List.take_sublist k _) hd)
    rw [hk]

/-- Closed instance of C8 at a concrete three-entry directory (two regular
files around one subdirectory). -/
theorem get_files_capture_spec_witness :
    (demoDir.map (·.name)).Nodup ∧
    ((get_files demoDir).1 = (demoDir.filter (·.isRegularFile)).map
        (fun e => ⟨e.name, b64encodeChars e.content⟩) ∧
      (get_files demoDir).2 = demoDir.filter (fun e => !e.isRegularFile) ∧
      get_files ([] : List DirEntry) = ([], []) ∧
      (∀ k : Nat, (get_files_aux demoDir ((demoDir.map (·.name)).take k)).2 =
          demoDir.filter
            (fun e => !(e.isRegularFile && decide (e.name ∈ (demoDir.map (·.name)).take k))))) :=
  ⟨by decide, get_files_capture_spec demoDir (by decide)⟩

/-- C9: transport encoding of artifacts is lossless — decoding the base64
text produced for any byte string returns exactly the original bytes, so
the bytes execute_code writes to persistent storage equal the bytes
get_files read from the working directory. -/
theorem artifact_bytes_roundtrip (bs : List Nat) (h : ∀ b ∈ bs, b < 256) :
    b64decodeChars (b64encodeChars bs) = some bs :=
  b64_roundtrip bs h

/-- Closed instance of C9 on a concrete byte string. -/
theorem artifact_bytes_roundtrip_witness :
    (∀ b ∈ [0, 104, 105, 255, 13], b < 256) ∧
      b64decodeChars (b64encodeChars [0, 104, 105, 255, 13]) = some [0, 104, 105, 255, 13] :=
  ⟨by decide, artifact_bytes_roundtrip [0, 104, 105, 255, 13] (by decide)⟩

/-- C10: attachments are validated but inert: a validated attachment list
has total size at most 100 MB, and two valid requests that differ only in
the attachments field produce identical handler outcomes — response,
session count, spawns, persisted files and process state. -/
theorem attachments_validated_but_unused :
    (∀ fs : List FileUpload, check_files (some fs) = true →
        (fs.map (·.size)).sum ≤ 100 * 1024 * 1024) ∧
    (∀ (kernel : String → List (Nat × Msg)) (uuidGen : Nat → String) (tmpdir : String)
        (d : List DirEntry) (r : CodeRequest) (f1 f2 : Option (List FileUpload)) (s0 : OsState),
      validRequest { r with files := f1 } = true →
      validRequest { r with files := f2 } = true →
      execute_code kernel uuidGen tmpdir d { r with files := f1 } s0 =
        execute_code kernel uuidGen tmpdir d { r with files := f2 } s0) := by
  constructor
  · intro fs h
    simp only [check_files, Bool.and_eq_true, decide_eq_true_eq] at h
    exact h.2
  · intro kernel uuidGen tmpdir d r f1 f2 s0 _ _
    rfl

/-- Closed instance of C10: a request without attachments and the same
request with one small attachment, both valid, execute identically. -/
theorem attachments_validated_but_unused_witness :
    validRequest { demoRequest with files := none } = true ∧
    validRequest { demoRequest with files := some [demoAttachment] } = true ∧
    execute_code silentKernel (fun _ => "id") "/tmp/req" []
        { demoRequest with files := none } ⟨"/app", []⟩ =
      execute_code silentKernel (fun _ => "id") "/tmp/req" []
        { demoRequest with files := some [demoAttachment] } ⟨"/app", []⟩ :=
  ⟨by decide, by decide,
   attachments_validated_but_unused.2 _ _ _ _ demoRequest none (some [demoAttachment]) _
     (by decide) (by decide)⟩
